import Mathlib

/-!
Shallow embedding of the `linuxdo_read_posts.py` topic-traversal engine and its
helpers (`utils/mask_utils.py`, the pagination parse, the scroll sub-loop, the
traversal loop `_read_posts`, the cache loader `_load_topic_id`, and the
account orchestrator `main`).

Browser interaction is modelled by explicit event streams: each probe of the
`.timeline-replies` element is an `Option String` (`none` = element missing,
`some txt` = the element's inner text), a topic visit is a `Visit` event
(navigation error / element missing / element with text plus the scroll
sub-loop's own probe stream), and the two `random.randint` draws of an
iteration are explicit `jump`/`step` inputs.  All string handling is modelled
for ASCII content: `pyStrip` is Python's `str.strip`, `isDigits` is
`str.isdigit`, `splitSlash` is `str.split('/')`.
-/

/-- Python `str.strip` whitespace predicate (ASCII part: space, tab, newline,
carriage return, vertical tab, form feed). -/
def pyIsSpace (c : Char) : Bool :=
  c = ' ' || c = '\t' || c = '\n' || c = '\r' || c = Char.ofNat 11 || c = Char.ofNat 12

/-- Python `str.strip()` on a character list: drop whitespace from both ends. -/
def pyStrip (cs : List Char) : List Char :=
  ((cs.dropWhile pyIsSpace).reverse.dropWhile pyIsSpace).reverse

/-- Python `str.split('/')`: split on every `'/'`, keeping empty pieces, so the
result always has (number of slashes + 1) pieces. -/
def splitSlash : List Char → List (List Char)
  | [] => [[]]
  | c :: rest =>
    if c = '/' then [] :: splitSlash rest
    else
      match splitSlash rest with
      | [] => [[c]]
      | g :: gs => (c :: g) :: gs

/-- Python `str.isdigit()` for ASCII text: nonempty and all characters are
decimal digits. -/
def isDigits (cs : List Char) : Bool :=
  !cs.isEmpty && cs.all Char.isDigit

/-- Decimal value of a digit string, as computed by Python `int(...)` on a
string of ASCII digits. -/
def natOfDigits (cs : List Char) : Nat :=
  cs.foldl (fun n c => n * 10 + (c.toNat - 48)) 0

/-- The pagination parse performed on the `.timeline-replies` inner text in
both loops of `linuxdo_read_posts.py`:
`parts = txt.strip().split('/')`, valid only if exactly two parts and both are
digit strings after stripping; then `(int(parts[0]), int(parts[1]))`. -/
def parse_progress (txt : String) : Option (Nat × Nat) :=
  match (splitSlash (pyStrip txt.data)).map pyStrip with
  | [a, b] =>
    if isDigits a && isDigits b then some (natOfDigits a, natOfDigits b)
    else none
  | _ => none

/-- `mask_username` from `utils/mask_utils.py`: empty stays empty; length ≤ 2
becomes all `'*'`; length ≤ 4 keeps the first character; otherwise first and
last characters are kept with `min(length - 2, 4)` stars between them. -/
def mask_username (username : String) : String :=
  let cs := username.data
  if cs.length = 0 then ""
  else if cs.length ≤ 2 then ⟨List.replicate cs.length '*'⟩
  else if cs.length ≤ 4 then ⟨cs.take 1 ++ List.replicate (cs.length - 1) '*'⟩
  else ⟨cs.take 1 ++ List.replicate (min (cs.length - 2) 4) '*' ++ cs.drop (cs.length - 1)⟩

/-- Why the scroll sub-loop of `_scroll_to_read` stopped. -/
inductive ScrollStop where
  | noElement
  | malformed
  | stalled
  | completed
  | outOfEvents
  deriving DecidableEq, Repr

/-- The `while True` loop of `_scroll_to_read`, driven by the stream of
`.timeline-replies` probes (one probe per iteration, each iteration preceded
by one `window.scrollBy` call).  State carried across iterations is the last
reading `(last_current_page, last_total_pages)`.  Returns the stop reason and
the number of iterations (= scrolls) performed. -/
def scrollLoop (last : Nat × Nat) : List (Option String) → ScrollStop × Nat
  | [] => (.outOfEvents, 0)
  | e :: rest =>
    match e with
    | none => (.noElement, 1)
    | some txt =>
      match parse_progress txt with
      | none => (.malformed, 1)
      | some (currentPage, totalPages) =>
        if currentPage = last.1 ∧ totalPages = last.2 then (.stalled, 1)
        else if totalPages ≤ currentPage then (.completed, 1)
        else
          let r := scrollLoop (currentPage, totalPages) rest
          (r.1, r.2 + 1)

/-- `_scroll_to_read`: the sub-loop started with `last = (0, 0)`. -/
def _scroll_to_read (events : List (Option String)) : ScrollStop × Nat :=
  scrollLoop (0, 0) events

/-- The in-memory traversal state of `_read_posts`: the topic id being
advanced, the accumulated read counter and the invalid-topic streak. -/
structure Cursor where
  topicId : Int
  readCount : Nat
  invalidCount : Nat
  deriving DecidableEq, Repr

/-- One topic visit's outcome, as the engine observes it: `page.goto` raised
(`navError`), the `.timeline-replies` element was absent (`noElement`), or the
element was present with inner text `txt` — in which case the scroll sub-loop,
if entered, consumes its own probe stream `scrollEvents`. -/
inductive Visit where
  | navError
  | noElement
  | element (txt : String) (scrollEvents : List (Option String))
  deriving DecidableEq, Repr

/-- The id-advance at the top of every `_read_posts` iteration: if
`invalid_count >= 5`, add the `[50,100]` draw `jump` and reset the streak;
otherwise add the `[1,5]` draw `step`. -/
def advanceId (c : Cursor) (jump step : Nat) : Cursor :=
  if 5 ≤ c.invalidCount then
    { c with topicId := c.topicId + jump, invalidCount := 0 }
  else
    { c with topicId := c.topicId + step }

/-- The body of one `_read_posts` iteration after navigation: a navigation
error or a missing element increments `invalid_count`; a present element with
a structurally valid reading resets `invalid_count` and, when
`current_page < total_pages`, runs the scroll sub-loop and then credits
`total_pages - current_page`; a present element whose text fails the
two-digit-parts check leaves the cursor unchanged (the guarded `if` has no
`else` branch inside the `try`).  The second component records the scroll
sub-loop's run when it was entered. -/
def visitTopic (c : Cursor) (v : Visit) : Cursor × Option (ScrollStop × Nat) :=
  match v with
  | .navError => ({ c with invalidCount := c.invalidCount + 1 }, none)
  | .noElement => ({ c with invalidCount := c.invalidCount + 1 }, none)
  | .element txt scrollEvents =>
    match parse_progress txt with
    | some (currentPage, totalPages) =>
      if currentPage < totalPages then
        ({ c with invalidCount := 0,
                  readCount := c.readCount + (totalPages - currentPage) },
         some (_scroll_to_read scrollEvents))
      else
        ({ c with invalidCount := 0 }, none)
    | none => (c, none)

/-- The inputs one traversal iteration consumes: the two possible
`random.randint` draws and the visit outcome. -/
structure TStep where
  jump : Nat
  step : Nat
  visit : Visit
  deriving DecidableEq, Repr

/-- The `while read_count < max_posts` loop of `_read_posts`, driven by the
stream of per-iteration inputs.  Returns the final cursor, the list of
post-advance cursors (the state at each `page.goto`, whose `topicId` is the
visited topic id), and the unconsumed inputs. -/
def runLoop (quota : Nat) (c : Cursor) : List TStep → Cursor × List Cursor × List TStep
  | [] => (c, [], [])
  | st :: rest =>
    if c.readCount < quota then
      let c1 := advanceId c st.jump st.step
      let c2 := (visitTopic c1 st.visit).1
      let r := runLoop quota c2 rest
      (r.1, c1 :: r.2.1, r.2.2)
    else (c, [], st :: rest)

/-- `_read_posts`: start from `max(base_topic_id, cached_topic_id)` with both
counters at zero and run the traversal loop; the final cursor's `topicId` is
what `_save_topic_id` persists and, with `readCount`, what the method
returns. -/
def _read_posts (base_topic_id cached_topic_id : Int) (max_posts : Nat)
    (events : List TStep) : Cursor × List Cursor × List TStep :=
  runLoop max_posts ⟨max base_topic_id cached_topic_id, 0, 0⟩ events

/-- The continuation of Python's integer-literal digit grammar after one
digit has been read: the remainder may interleave single underscores, each of
which must be followed by a digit (PEP 515 grouping: `1_000` is accepted,
`1__0`, `1_` and `_1` are not). -/
def pyIntDigitsRest : List Char → Bool
  | [] => true
  | '_' :: [] => false
  | '_' :: d :: rest => d.isDigit && pyIntDigitsRest rest
  | d :: rest => d.isDigit && pyIntDigitsRest rest

/-- Python's unsigned integer-literal digit grammar for ASCII text: a leading
digit followed by digits with optional single-underscore grouping. -/
def pyIntDigits : List Char → Bool
  | [] => false
  | d :: rest => d.isDigit && pyIntDigitsRest rest

/-- Python `int(...)` on an already-stripped ASCII string: an optional sign
followed by a nonempty digit string with PEP 515 underscore grouping allowed
(underscores are ignored for the value, so `int("1_000") = 1000`); anything
else raises `ValueError`, modelled as `none`. -/
def pyInt (cs : List Char) : Option Int :=
  match cs with
  | '-' :: rest =>
    if pyIntDigits rest then some (-(natOfDigits (rest.filter fun c => c != '_') : Int))
    else none
  | '+' :: rest =>
    if pyIntDigits rest then some ((natOfDigits (rest.filter fun c => c != '_') : Int))
    else none
  | _ =>
    if pyIntDigits cs then some ((natOfDigits (cs.filter fun c => c != '_') : Int))
    else none

/-- `_load_topic_id` as evidently intended (the source has the `except` clause
mis-indented by one extra space, a `TabError` at import time; with that slip
removed the method reads): if the cache file is absent (`none`) return 0;
otherwise strip the content; if empty return 0; otherwise `int(content)`,
with `ValueError` caught and 0 returned. -/
def _load_topic_id (fileContent : Option String) : Int :=
  match fileContent with
  | none => 0
  | some content =>
    let c := pyStrip content.data
    if c.isEmpty then 0
    else
      match pyInt c with
      | some n => n
      | none => 0

/-- The payload of one account run: the dict `run` returns on success, or the
error dict. -/
inductive RunRes where
  | ok (read_count : Nat) (last_topic_id : Int)
  | err (msg : String)
  deriving DecidableEq, Repr

/-- What one account's processing inside `main`'s per-account `try` did:
`reader.run()` returned `(success, result)` after `secs` wall-clock seconds,
or some stage raised an exception with message `msg`. -/
inductive AccountOutcome where
  | returned (success : Bool) (res : RunRes) (secs : Nat)
  | raised (msg : String)
  deriving DecidableEq, Repr

/-- One entry of `main`'s `results` list. -/
structure ResultEntry where
  username : String
  success : Bool
  res : RunRes
  duration : String
  deriving DecidableEq, Repr

/-- Two-digit zero padding, Python `f'{n:02d}'` for nonnegative `n`. -/
def pad2 (n : Nat) : String :=
  if n < 10 then "0" ++ toString n else toString n

/-- `main`'s duration formatting: `divmod` by 3600 then 60, rendered
`HH:MM:SS`. -/
def formatDuration (totalSeconds : Nat) : String :=
  pad2 (totalSeconds / 3600) ++ ":" ++ pad2 (totalSeconds % 3600 / 60) ++ ":"
    ++ pad2 (totalSeconds % 3600 % 60)

/-- The body of `main`'s per-account loop: a completed run is appended with
its measured duration; an exception is caught and appended as a failed entry
with the exception's message and duration `"00:00:00"`. -/
def processAccount (username : String) (o : AccountOutcome) : ResultEntry :=
  match o with
  | .returned success res secs => ⟨username, success, res, formatDuration secs⟩
  | .raised msg => ⟨username, false, .err msg, "00:00:00"⟩

/-- `main`'s loop over the configured accounts: every account contributes
exactly one appended result, and the loop continues past each account. -/
def orchestrate : List (String × AccountOutcome) → List ResultEntry
  | [] => []
  | (u, o) :: rest => processAccount u o :: orchestrate rest

/-- The per-result report line built in `main`'s notification block (the
success line embeds a newline but is one list element). -/
def resultLine (r : ResultEntry) : String :=
  if r.success then
    match r.res with
    | .ok read_count last_topic_id =>
      "✅ " ++ mask_username r.username ++ ": Read " ++ toString read_count
        ++ " posts (" ++ r.duration ++ ")\n   Last topic: https://linux.do/t/topic/"
        ++ toString last_topic_id
    | .err _ =>
      "✅ " ++ mask_username r.username ++ ": Read 0 posts (" ++ r.duration
        ++ ")\n   Last topic: https://linux.do/t/topic/unknown"
  else
    match r.res with
    | .err msg => "❌ " ++ mask_username r.username ++ ": " ++ msg ++ " (" ++ r.duration ++ ")"
    | .ok _ _ =>
      "❌ " ++ mask_username r.username ++ ": Unknown error (" ++ r.duration ++ ")"

/-- The `for r in results` loop of the notification block: one line per
result entry. -/
def resultLines (rs : List ResultEntry) : List String :=
  rs.map resultLine

/-- The page-credit one visit adds to `read_count`. -/
def credit (v : Visit) : Nat :=
  match v with
  | .element txt _ =>
    match parse_progress txt with
    | some (currentPage, totalPages) =>
      if currentPage < totalPages then totalPages - currentPage else 0
    | none => 0
  | _ => 0

example : parse_progress "3/5" = some (3, 5) := by decide
example : parse_progress " 12 / 34 " = some (12, 34) := by decide
example : parse_progress "abc" = none := by decide
example : parse_progress "3/5/7" = none := by decide
example : parse_progress "" = none := by decide
example : mask_username "hello" = "h***o" := by decide
example : mask_username "ab" = "**" := by decide
example : mask_username "abc" = "a**" := by decide
example : _scroll_to_read [some "3/5", some "3/5", some "4/5"] = (.stalled, 2) := by decide
example : _scroll_to_read [some "5/5", some "1/5"] = (.completed, 1) := by decide
example : _load_topic_id (some "123") = 123 := by decide
example : _load_topic_id (some "1_000") = 1000 := by decide
example : _load_topic_id (some "-5") = -5 := by decide
example : _load_topic_id (some "1_") = 0 := by decide
example : _load_topic_id (some "1__0") = 0 := by decide
example : _load_topic_id (some "_1") = 0 := by decide
example : _load_topic_id (some "12abc") = 0 := by decide

/-! ### Lemmas about one traversal iteration -/

lemma advanceId_readCount (c : Cursor) (j s : Nat) :
    (advanceId c j s).readCount = c.readCount := by
  unfold advanceId; split <;> rfl

lemma advanceId_topicId_le (c : Cursor) (j s : Nat) :
    c.topicId ≤ (advanceId c j s).topicId := by
  unfold advanceId; split <;> simp

lemma advanceId_invalid_le (c : Cursor) (j s : Nat) (h : c.invalidCount ≤ 5) :
    (advanceId c j s).invalidCount ≤ 4 := by
  unfold advanceId
  split
  · simp
  · show c.invalidCount ≤ 4
    omega

lemma visitTopic_readCount (c : Cursor) (v : Visit) :
    ((visitTopic c v).1).readCount = c.readCount + credit v := by
  cases v with
  | navError => simp [visitTopic, credit]
  | noElement => simp [visitTopic, credit]
  | element txt se =>
    rcases hp : parse_progress txt with _ | ⟨cur, tot⟩
    · simp [visitTopic, credit, hp]
    · by_cases hlt : cur < tot <;> simp [visitTopic, credit, hp, hlt]

lemma visitTopic_topicId (c : Cursor) (v : Visit) :
    ((visitTopic c v).1).topicId = c.topicId := by
  cases v with
  | navError => rfl
  | noElement => rfl
  | element txt se =>
    rcases hp : parse_progress txt with _ | ⟨cur, tot⟩
    · simp [visitTopic, hp]
    · by_cases hlt : cur < tot <;> simp [visitTopic, hp, hlt]

lemma visitTopic_invalid_le (c : Cursor) (v : Visit) :
    ((visitTopic c v).1).invalidCount ≤ c.invalidCount + 1 := by
  cases v with
  | navError => simp [visitTopic]
  | noElement => simp [visitTopic]
  | element txt se =>
    rcases hp : parse_progress txt with _ | ⟨cur, tot⟩
    · simp [visitTopic, hp]
    · by_cases hlt : cur < tot <;> simp [visitTopic, hp, hlt]

/-! ### Lemmas about the traversal loop -/

lemma runLoop_nil (quota : Nat) (c : Cursor) : runLoop quota c [] = (c, [], []) := rfl

lemma runLoop_cons_lt (quota : Nat) (c : Cursor) (st : TStep) (rest : List TStep)
    (h : c.readCount < quota) :
    runLoop quota c (st :: rest) =
      ((runLoop quota ((visitTopic (advanceId c st.jump st.step) st.visit).1) rest).1,
       advanceId c st.jump st.step ::
         (runLoop quota ((visitTopic (advanceId c st.jump st.step) st.visit).1) rest).2.1,
       (runLoop quota ((visitTopic (advanceId c st.jump st.step) st.visit).1) rest).2.2) := by
  simp [runLoop, h]

lemma runLoop_cons_ge (quota : Nat) (c : Cursor) (st : TStep) (rest : List TStep)
    (h : ¬ c.readCount < quota) :
    runLoop quota c (st :: rest) = (c, [], st :: rest) := by
  simp [runLoop, h]

lemma runLoop_topicId_mono (quota : Nat) :
    ∀ (events : List TStep) (c : Cursor),
      c.topicId ≤ (runLoop quota c events).1.topicId
      ∧ ∀ cv ∈ (runLoop quota c events).2.1, c.topicId ≤ cv.topicId := by
  intro events
  induction events with
  | nil => intro c; simp [runLoop_nil]
  | cons st rest ih =>
    intro c
    by_cases hq : c.readCount < quota
    · rw [runLoop_cons_lt quota c st rest hq]
      have hstep : c.topicId ≤
          ((visitTopic (advanceId c st.jump st.step) st.visit).1).topicId := by
        rw [visitTopic_topicId]; exact advanceId_topicId_le c st.jump st.step
      refine ⟨le_trans hstep (ih _).1, ?_⟩
      intro cv hcv
      simp only [List.mem_cons] at hcv
      rcases hcv with rfl | hcv
      · exact advanceId_topicId_le c st.jump st.step
      · exact le_trans hstep ((ih _).2 cv hcv)
    · rw [runLoop_cons_ge quota c st rest hq]; simp

lemma runLoop_invalid_inv (quota : Nat) :
    ∀ (events : List TStep) (c : Cursor), c.invalidCount ≤ 5 →
      (runLoop quota c events).1.invalidCount ≤ 5
      ∧ ∀ cv ∈ (runLoop quota c events).2.1, cv.invalidCount ≤ 4 := by
  intro events
  induction events with
  | nil => intro c h; simpa [runLoop_nil] using h
  | cons st rest ih =>
    intro c h
    by_cases hq : c.readCount < quota
    · rw [runLoop_cons_lt quota c st rest hq]
      have h1 : (advanceId c st.jump st.step).invalidCount ≤ 4 :=
        advanceId_invalid_le c st.jump st.step h
      have h2 : ((visitTopic (advanceId c st.jump st.step) st.visit).1).invalidCount ≤ 5 :=
        le_trans (visitTopic_invalid_le _ _) (by omega)
      refine ⟨(ih _ h2).1, ?_⟩
      intro cv hcv
      simp only [List.mem_cons] at hcv
      rcases hcv with rfl | hcv
      · exact h1
      · exact (ih _ h2).2 cv hcv
    · rw [runLoop_cons_ge quota c st rest hq]
      simpa using h

/-- The per-iteration credit stream of a traversal input stream. -/
def credits (events : List TStep) : List Nat :=
  events.map fun st => credit st.visit

/-- Number of loop iterations the traversal performs before `read_count`
first reaches the quota (or the input stream is exhausted), given the running
`read_count` and the credit stream. -/
def visitsNeeded (quota : Nat) : Nat → List Nat → Nat
  | _, [] => 0
  | readAcc, cr :: rest =>
    if readAcc < quota then visitsNeeded quota (readAcc + cr) rest + 1 else 0

lemma runLoop_count_spec (quota : Nat) :
    ∀ (events : List TStep) (c : Cursor),
      (runLoop quota c events).2.1.length = visitsNeeded quota c.readCount (credits events)
      ∧ (runLoop quota c events).2.2 =
          events.drop (visitsNeeded quota c.readCount (credits events))
      ∧ (runLoop quota c events).1.readCount =
          c.readCount +
            ((credits events).take (visitsNeeded quota c.readCount (credits events))).sum := by
  intro events
  induction events with
  | nil => intro c; simp [runLoop_nil, credits, visitsNeeded]
  | cons st rest ih =>
    intro c
    have hcr : credits (st :: rest) = credit st.visit :: credits rest := rfl
    by_cases hq : c.readCount < quota
    · have hread : ((visitTopic (advanceId c st.jump st.step) st.visit).1).readCount
          = c.readCount + credit st.visit := by
        rw [visitTopic_readCount, advanceId_readCount]
      have ih' := ih ((visitTopic (advanceId c st.jump st.step) st.visit).1)
      rw [hread] at ih'
      rw [runLoop_cons_lt quota c st rest hq, hcr]
      have hvn : visitsNeeded quota c.readCount (credit st.visit :: credits rest)
          = visitsNeeded quota (c.readCount + credit st.visit) (credits rest) + 1 := by
        simp [visitsNeeded, hq]
      rw [hvn]
      refine ⟨by simp [ih'.1], ?_, ?_⟩
      · rw [List.drop_succ_cons]; exact ih'.2.1
      · rw [List.take_succ_cons, List.sum_cons, ih'.2.2, Nat.add_assoc]
    · rw [runLoop_cons_ge quota c st rest hq, hcr]
      simp [visitsNeeded, hq]

lemma visitsNeeded_reaches (quota : Nat) :
    ∀ (crs : List Nat) (readAcc : Nat), quota ≤ readAcc + crs.sum →
      quota ≤ readAcc + (crs.take (visitsNeeded quota readAcc crs)).sum := by
  intro crs
  induction crs with
  | nil => intro readAcc h; simpa using h
  | cons cr rest ih =>
    intro readAcc h
    by_cases hq : readAcc < quota
    · have h' : quota ≤ (readAcc + cr) + rest.sum := by
        simp only [List.sum_cons] at h; omega
      have := ih (readAcc + cr) h'
      simp only [visitsNeeded, if_pos hq, List.take_succ_cons, List.sum_cons]
      omega
    · simp only [visitsNeeded, if_neg hq, List.take_zero, List.sum_nil]
      omega

lemma visitsNeeded_minimal (quota : Nat) :
    ∀ (crs : List Nat) (readAcc k : Nat), k < visitsNeeded quota readAcc crs →
      readAcc + (crs.take k).sum < quota := by
  intro crs
  induction crs with
  | nil => intro readAcc k h; simp [visitsNeeded] at h
  | cons cr rest ih =>
    intro readAcc k h
    by_cases hq : readAcc < quota
    · rw [visitsNeeded, if_pos hq] at h
      cases k with
      | zero => simpa using hq
      | succ k' =>
        have := ih (readAcc + cr) k' (by omega)
        simp only [List.take_succ_cons, List.sum_cons]
        omega
    · rw [visitsNeeded, if_neg hq] at h
      omega

/-- One full iteration of the traversal loop (advance, then visit), as
executed whenever `read_count < max_posts`. -/
def loopBody (c : Cursor) (st : TStep) : Cursor :=
  (visitTopic (advanceId c st.jump st.step) st.visit).1

lemma invalid_streak :
    ∀ (sts : List TStep) (c : Cursor),
      (∀ st ∈ sts, st.visit = Visit.navError ∨ st.visit = Visit.noElement) →
      c.invalidCount + sts.length ≤ 5 →
      (sts.foldl loopBody c).invalidCount = c.invalidCount + sts.length := by
  intro sts
  induction sts with
  | nil => intro c _ _; simp
  | cons st rest ih =>
    intro c hall hle
    have hv := hall st (by simp)
    have hinv : c.invalidCount < 5 := by
      simp only [List.length_cons] at hle; omega
    have hadv : advanceId c st.jump st.step =
        { c with topicId := c.topicId + st.step } := by
      unfold advanceId; rw [if_neg (by omega)]
    have hbody : (loopBody c st).invalidCount = c.invalidCount + 1 := by
      unfold loopBody
      rcases hv with hv | hv <;> rw [hv, hadv] <;> simp [visitTopic]
    have hrest : (loopBody c st).invalidCount + rest.length ≤ 5 := by
      rw [hbody]; simp only [List.length_cons] at hle; omega
    rw [List.foldl_cons,
        ih (loopBody c st) (fun s hs => hall s (List.mem_cons_of_mem st hs)) hrest,
        hbody]
    simp only [List.length_cons]; omega

lemma malformed_streak :
    ∀ (sts : List TStep) (c : Cursor),
      (∀ st ∈ sts, ∃ txt se, st.visit = Visit.element txt se ∧ parse_progress txt = none) →
      c.invalidCount < 5 →
      (sts.foldl loopBody c).invalidCount = c.invalidCount
      ∧ (sts.foldl loopBody c).readCount = c.readCount := by
  intro sts
  induction sts with
  | nil => intro c _ _; exact ⟨rfl, rfl⟩
  | cons st rest ih =>
    intro c hall hlt
    obtain ⟨txt, se, hv, hmal⟩ := hall st (by simp)
    have hadv : advanceId c st.jump st.step =
        { c with topicId := c.topicId + st.step } := by
      unfold advanceId; rw [if_neg (by omega)]
    have hbody : loopBody c st = { c with topicId := c.topicId + st.step } := by
      unfold loopBody
      rw [hv, hadv]
      simp [visitTopic, hmal]
    rw [List.foldl_cons, hbody]
    exact ih { c with topicId := c.topicId + st.step }
      (fun s hs => hall s (List.mem_cons_of_mem st hs)) hlt

/-! ### Claim theorems -/

/-- Claim C1: on a structurally valid probe reading
`(current_page, total_pages)` with `current_page < total_pages` the engine
enters the scroll sub-loop and then credits exactly
`total_pages - current_page` — computed from the pre-scroll reading — to
`read_count`, whatever the scroll sub-loop's probe stream (hence stop reason
and iteration count) turns out to be; with `current_page >= total_pages` the
read counter is unchanged and the scroll sub-loop is not entered. -/
theorem credit_is_pre_scroll (c : Cursor) (txt : String)
    (se : List (Option String)) (currentPage totalPages : Nat)
    (hp : parse_progress txt = some (currentPage, totalPages)) :
    (currentPage < totalPages →
      visitTopic c (Visit.element txt se) =
        ({ c with invalidCount := 0,
                  readCount := c.readCount + (totalPages - currentPage) },
         some (_scroll_to_read se)))
    ∧ (totalPages ≤ currentPage →
      visitTopic c (Visit.element txt se) = ({ c with invalidCount := 0 }, none)) := by
  constructor
  · intro hlt
    simp [visitTopic, hp, hlt]
  · intro hge
    simp [visitTopic, hp, Nat.not_lt.mpr hge]

/-- Witness for C1: reading `2/5` credits 3 regardless of the scroll stream;
reading `5/5` credits nothing and skips the sub-loop. -/
theorem credit_is_pre_scroll_witness :
    visitTopic ⟨100, 7, 3⟩ (Visit.element "2/5" [some "9/9"]) =
      (⟨100, 10, 0⟩, some (_scroll_to_read [some "9/9"]))
    ∧ visitTopic ⟨100, 7, 3⟩ (Visit.element "5/5" []) = (⟨100, 7, 0⟩, none) :=
  ⟨(credit_is_pre_scroll ⟨100, 7, 3⟩ "2/5" [some "9/9"] 2 5 (by decide)).1 (by decide),
   (credit_is_pre_scroll ⟨100, 7, 3⟩ "5/5" [] 5 5 (by decide)).2 (by decide)⟩

/-- Claim C8: `mask_username` preserves the length for usernames of length at
most 4 (all characters replaced by `*` when the length is at most 2, all but
the first character when the length is 3 or 4), and for longer usernames
produces the first character, between 1 and 4 `*` characters, and the last
character. -/
theorem mask_username_shape (u : String) :
    (u.length ≤ 4 →
      (mask_username u).length = u.length
      ∧ (u.length ≤ 2 → (mask_username u).data = List.replicate u.length '*')
      ∧ (3 ≤ u.length → (mask_username u).data
          = u.data.take 1 ++ List.replicate (u.length - 1) '*'))
    ∧ (4 < u.length → ∃ k, 1 ≤ k ∧ k ≤ 4 ∧
        (mask_username u).data
          = u.data.take 1 ++ List.replicate k '*' ++ u.data.drop (u.length - 1)) := by
  have hlen : u.length = u.data.length := rfl
  by_cases h0 : u.data.length = 0
  · have hm : mask_username u = "" := by
      simp only [mask_username]
      rw [if_pos h0]
    constructor
    · intro _
      refine ⟨?_, ?_, ?_⟩
      · rw [hm]
        show 0 = u.length
        rw [hlen, h0]
      · intro _
        rw [hm, hlen, h0]
        rfl
      · intro h3
        rw [hlen] at h3
        omega
    · intro h5
      rw [hlen] at h5
      omega
  · by_cases h2 : u.data.length ≤ 2
    · have hm : (mask_username u).data = List.replicate u.data.length '*' := by
        simp only [mask_username]
        rw [if_neg h0, if_pos h2]
      constructor
      · intro _
        refine ⟨?_, ?_, ?_⟩
        · show (mask_username u).data.length = u.data.length
          rw [hm, List.length_replicate]
        · intro _
          rw [hm, hlen]
        · intro h3
          rw [hlen] at h3
          omega
      · intro h5
        rw [hlen] at h5
        omega
    · by_cases h4 : u.data.length ≤ 4
      · have hm : (mask_username u).data
            = u.data.take 1 ++ List.replicate (u.data.length - 1) '*' := by
          simp only [mask_username]
          rw [if_neg h0, if_neg h2, if_pos h4]
        constructor
        · intro _
          refine ⟨?_, ?_, ?_⟩
          · show (mask_username u).data.length = u.data.length
            rw [hm]
            simp only [List.length_append, List.length_take, List.length_replicate]
            omega
          · intro hc
            rw [hlen] at hc
            omega
          · intro _
            rw [hm, hlen]
        · intro h5
          rw [hlen] at h5
          omega
      · have hm : (mask_username u).data
            = u.data.take 1 ++ List.replicate (min (u.data.length - 2) 4) '*'
              ++ u.data.drop (u.data.length - 1) := by
          simp only [mask_username]
          rw [if_neg h0, if_neg h2, if_neg h4]
        constructor
        · intro h4c
          rw [hlen] at h4c
          omega
        · intro _
          refine ⟨min (u.data.length - 2) 4, by omega, by omega, ?_⟩
          rw [hm, hlen]

/-- Witness for C8 at a short and a long username. -/
theorem mask_username_shape_witness :
    (mask_username "abc").length = ("abc" : String).length
    ∧ (∃ k, 1 ≤ k ∧ k ≤ 4 ∧
        (mask_username "hello").data
          = "hello".data.take 1 ++ List.replicate k '*'
            ++ "hello".data.drop (("hello" : String).length - 1)) :=
  ⟨((mask_username_shape "abc").1 (by decide)).1,
   (mask_username_shape "hello").2 (by decide)⟩

/-- Claim C2 (amended): at the start of every traversal iteration, if
`invalid_count >= 5` the topic id advances by the `[50,100]` jump and the
streak resets to 0 immediately after the jump; otherwise it advances by the
`[1,5]` step with the streak kept.  After exactly 5 consecutive
invalid-counted probe results — navigation errors or missing indicator
elements — from a clean streak the streak is 5, so the next advance is the
jump, landing in `[topicId+50, topicId+100]`, not the `[1,5]` step; but any
run of present-element malformed-text probe results (also `Invalid` in the
spec's taxonomy) leaves the streak at 0, so the next advance is still the
normal `[1,5]` step, not a jump. -/
theorem backoff_jump (c : Cursor) (jump step : Nat)
    (hj1 : 50 ≤ jump) (hj2 : jump ≤ 100) (hs1 : 1 ≤ step) (hs2 : step ≤ 5) :
    (5 ≤ c.invalidCount →
      advanceId c jump step = ⟨c.topicId + jump, c.readCount, 0⟩
      ∧ c.topicId + 50 ≤ c.topicId + jump ∧ c.topicId + jump ≤ c.topicId + 100)
    ∧ (c.invalidCount < 5 →
      advanceId c jump step = ⟨c.topicId + step, c.readCount, c.invalidCount⟩
      ∧ c.topicId + 1 ≤ c.topicId + step ∧ c.topicId + step ≤ c.topicId + 5)
    ∧ (∀ sts : List TStep, c.invalidCount = 0 → sts.length = 5 →
        (∀ st ∈ sts, st.visit = Visit.navError ∨ st.visit = Visit.noElement) →
        (sts.foldl loopBody c).invalidCount = 5
        ∧ advanceId (sts.foldl loopBody c) jump step =
            ⟨(sts.foldl loopBody c).topicId + jump,
             (sts.foldl loopBody c).readCount, 0⟩)
    ∧ (∀ sts : List TStep, c.invalidCount = 0 →
        (∀ st ∈ sts, ∃ txt se, st.visit = Visit.element txt se
          ∧ parse_progress txt = none) →
        (sts.foldl loopBody c).invalidCount = 0
        ∧ advanceId (sts.foldl loopBody c) jump step =
            { sts.foldl loopBody c with
              topicId := (sts.foldl loopBody c).topicId + step }) := by
  have hjump : ∀ d : Cursor, 5 ≤ d.invalidCount →
      advanceId d jump step = ⟨d.topicId + jump, d.readCount, 0⟩ := by
    intro d hd
    unfold advanceId
    rw [if_pos hd]
  refine ⟨?_, ?_, ?_, ?_⟩
  · intro h5
    exact ⟨hjump c h5, by omega, by omega⟩
  · intro hlt
    have hstep : advanceId c jump step = ⟨c.topicId + step, c.readCount, c.invalidCount⟩ := by
      unfold advanceId
      rw [if_neg (by omega)]
    exact ⟨hstep, by omega, by omega⟩
  · intro sts h0 hlen hall
    have hstreak : (sts.foldl loopBody c).invalidCount = 5 := by
      rw [invalid_streak sts c hall (by omega), h0, hlen]
    exact ⟨hstreak, hjump _ (by rw [hstreak])⟩
  · intro sts h0 hall
    have hz : (sts.foldl loopBody c).invalidCount = 0 := by
      rw [(malformed_streak sts c hall (by omega)).1, h0]
    refine ⟨hz, ?_⟩
    unfold advanceId
    rw [if_neg (by omega)]

/-- Witness for C2 (amended): a streak of 5 forces the jump; a streak of 4
still steps; five consecutive missing-element visits build the streak to 5;
five consecutive malformed-text visits leave it at 0. -/
theorem backoff_jump_witness :
    advanceId ⟨50, 0, 5⟩ 60 2 = ⟨110, 0, 0⟩
    ∧ advanceId ⟨50, 0, 4⟩ 60 2 = ⟨52, 0, 4⟩
    ∧ ((List.replicate 5 (⟨0, 3, Visit.noElement⟩ : TStep)).foldl loopBody
        ⟨7, 0, 0⟩).invalidCount = 5
    ∧ ((List.replicate 5 (⟨60, 2, Visit.element "abc" []⟩ : TStep)).foldl loopBody
        ⟨7, 0, 0⟩).invalidCount = 0 :=
  ⟨((backoff_jump ⟨50, 0, 5⟩ 60 2 (by decide) (by decide) (by decide) (by decide)).1
      (by decide)).1,
   ((backoff_jump ⟨50, 0, 4⟩ 60 2 (by decide) (by decide) (by decide) (by decide)).2.1
      (by decide)).1,
   ((backoff_jump ⟨7, 0, 0⟩ 60 2 (by decide) (by decide) (by decide) (by decide)).2.2.1
      (List.replicate 5 ⟨0, 3, Visit.noElement⟩) rfl rfl (by decide)).1,
   ((backoff_jump ⟨7, 0, 0⟩ 60 2 (by decide) (by decide) (by decide) (by decide)).2.2.2
      (List.replicate 5 ⟨60, 2, Visit.element "abc" []⟩) rfl
      (by
        intro st hst
        rw [List.eq_of_mem_replicate hst]
        exact ⟨"abc", [], rfl, by decide⟩)).1⟩

/-- Claim C2 as stated is false on the code: five consecutive `Invalid` probe
results of the present-element malformed-text kind (inner text `"abc"`),
starting from a clean streak at topic id 7 with per-iteration draws
`jump = 60`, `step = 2`, leave `invalid_count` at 0 — not 5 — so the next
advance is the normal step to `17 + 2 = 19`, not the `[50,100]` jump to
`17 + 60 = 77`. -/
theorem backoff_jump_counterexample :
    ((List.replicate 5 (⟨60, 2, Visit.element "abc" []⟩ : TStep)).foldl loopBody
        ⟨7, 0, 0⟩).invalidCount = 0
    ∧ advanceId ((List.replicate 5 (⟨60, 2, Visit.element "abc" []⟩ : TStep)).foldl
        loopBody ⟨7, 0, 0⟩) 60 2 = ⟨19, 0, 0⟩
    ∧ (⟨19, 0, 0⟩ : Cursor) ≠ ⟨77, 0, 0⟩ := by
  refine ⟨by decide, by decide, by decide⟩

/-- Claim C3: the run starts at `max(base_topic_id, cached_topic_id)` (so with
`base < cached` it starts at the cached id), and every visited topic id — in
particular the finally persisted one — is at least that starting point, hence
at least the cached id and at least the configured base id. -/
theorem forward_progress (base cached : Int) (quota : Nat) (events : List TStep) :
    cached ≤ (_read_posts base cached quota events).1.topicId
    ∧ base ≤ (_read_posts base cached quota events).1.topicId
    ∧ (∀ cv ∈ (_read_posts base cached quota events).2.1,
        max base cached ≤ cv.topicId)
    ∧ (base < cached →
        _read_posts base cached quota events = runLoop quota ⟨cached, 0, 0⟩ events) := by
  have hmono := runLoop_topicId_mono quota events ⟨max base cached, 0, 0⟩
  refine ⟨?_, ?_, ?_, ?_⟩
  · exact le_trans (le_max_right base cached) hmono.1
  · exact le_trans (le_max_left base cached) hmono.1
  · exact fun cv hcv => hmono.2 cv hcv
  · intro hlt
    simp only [_read_posts]
    rw [max_eq_right (le_of_lt hlt)]

/-- Witness for C3: cached id 10, base 3: run starts at 10 and stays at or
above it. -/
theorem forward_progress_witness :
    (10 : Int) ≤ (_read_posts 3 10 1 [⟨60, 2, Visit.noElement⟩]).1.topicId
    ∧ max (3 : Int) 10 ≤ (Cursor.mk 12 0 0).topicId
    ∧ _read_posts 3 10 1 [⟨60, 2, Visit.noElement⟩]
        = runLoop 1 ⟨10, 0, 0⟩ [⟨60, 2, Visit.noElement⟩] :=
  ⟨(forward_progress 3 10 1 [⟨60, 2, Visit.noElement⟩]).1,
   (forward_progress 3 10 1 [⟨60, 2, Visit.noElement⟩]).2.2.1 ⟨12, 0, 0⟩ (by decide),
   (forward_progress 3 10 1 [⟨60, 2, Visit.noElement⟩]).2.2.2 (by decide)⟩

/-- Claim C9: `invalid_count` stays within `[0,5]` throughout a run — each
visit raises it by at most 1, and the advance resets it to 0 once it has
reached 5 — so every topic navigation (every post-advance cursor of the
visited list) happens with `invalid_count <= 4`. -/
theorem invalid_count_invariant (quota : Nat) (c : Cursor) (events : List TStep)
    (h : c.invalidCount ≤ 5) :
    (runLoop quota c events).1.invalidCount ≤ 5
    ∧ (∀ cv ∈ (runLoop quota c events).2.1, cv.invalidCount ≤ 4)
    ∧ (∀ v, ((visitTopic c v).1).invalidCount ≤ c.invalidCount + 1)
    ∧ (5 ≤ c.invalidCount → ∀ j s, (advanceId c j s).invalidCount = 0)
    ∧ (∀ base cached : Int, ∀ cv ∈ (_read_posts base cached quota events).2.1,
        cv.invalidCount ≤ 4) := by
  refine ⟨(runLoop_invalid_inv quota events c h).1,
    (runLoop_invalid_inv quota events c h).2, ?_, ?_, ?_⟩
  · exact fun v => visitTopic_invalid_le c v
  · intro h5 j s
    unfold advanceId
    rw [if_pos h5]
  · intro base cached
    exact (runLoop_invalid_inv quota events ⟨max base cached, 0, 0⟩ (Nat.zero_le 5)).2

/-- Witness for C9: a saturated streak of 5 is reset by the advance, and a
concrete run's final streak stays within the bound. -/
theorem invalid_count_invariant_witness :
    (runLoop 1 ⟨0, 0, 5⟩ [⟨60, 2, Visit.noElement⟩]).1.invalidCount ≤ 5
    ∧ (advanceId ⟨0, 0, 5⟩ 60 2).invalidCount = 0 :=
  ⟨(invalid_count_invariant 1 ⟨0, 0, 5⟩ [⟨60, 2, Visit.noElement⟩] (by decide)).1,
   (invalid_count_invariant 1 ⟨0, 0, 5⟩ [⟨60, 2, Visit.noElement⟩] (by decide)).2.2.2.1
     (by decide) 60 2⟩

/-- Claim C7: the orchestrator produces exactly one result entry — and hence
one report line — per configured account; an account whose run raises is
recorded as a failed entry carrying the exception's message and the zero
duration `00:00:00` (which is `formatDuration 0`), and iteration continues
over the remaining accounts. -/
theorem orchestrator_isolation :
    (∀ xs : List (String × AccountOutcome),
      (orchestrate xs).length = xs.length
      ∧ (resultLines (orchestrate xs)).length = xs.length)
    ∧ (∀ (u msg : String) (rest : List (String × AccountOutcome)),
        orchestrate ((u, AccountOutcome.raised msg) :: rest)
          = ⟨u, false, RunRes.err msg, "00:00:00"⟩ :: orchestrate rest)
    ∧ formatDuration 0 = "00:00:00" := by
  refine ⟨?_, ?_, ?_⟩
  · intro xs
    have h1 : (orchestrate xs).length = xs.length := by
      induction xs with
      | nil => rfl
      | cons p rest ih =>
        obtain ⟨u, o⟩ := p
        simp [orchestrate, ih]
    exact ⟨h1, by simpa [resultLines] using h1⟩
  · intro u msg rest
    rfl
  · rfl
